import Mathlib

set_option maxRecDepth 100000

/-!
Shallow embedding of the session/attribution core of the shopify_agent
repository, together with proofs about its behaviour.

Source files embedded here:
- `src/behold_agent/agent/session_context.py` (SessionContext and its mutators)
- `src/behold_agent/analytics/cart_attribution.py` (cart tagging and order
  attribute extraction)
- `src/behold_agent/analytics/webhook_handler.py` (HMAC webhook verification)
- `src/behold_agent/analytics/tracking_service.py` together with
  `src/behold_agent/analytics/database.py` (order recording against the
  relational store)

Machine integers are modelled as `Nat` with explicit reduction modulo `2 ^ 32`
where the SHA-256 arithmetic overflows; Python dictionaries are modelled as
association lists; Python `datetime` values are modelled as an abstract clock
passed explicitly to each operation that reads it; Python floats (order
amounts) are modelled as rationals, which is faithful for the additive
bookkeeping the claims are about; fallible Python code (paths that raise)
returns `Except`.
-/

namespace ShopifyAgent

/-- A dynamically-typed Python value, as far as the embedded code inspects
one: `None`, booleans, integers, strings, lists and string-keyed dicts. -/
inductive PyVal where
  | none : PyVal
  | bool (b : Bool) : PyVal
  | int (n : Int) : PyVal
  | str (s : String) : PyVal
  | list (xs : List PyVal) : PyVal
  | dict (kvs : List (String × PyVal)) : PyVal

/-- Python exceptions raised by the embedded code paths. -/
inductive PyErr where
  | typeError : PyErr
  | attributeError : PyErr
deriving DecidableEq, Repr

/-- Lookup in an association list modelling `d.get(k, default)` on a Python
dict whose keys are strings. -/
def dictGetD (kvs : List (String × PyVal)) (k : String) (d : PyVal) : PyVal :=
  match kvs.find? (fun kv => kv.1 == k) with
  | some kv => kv.2
  | Option.none => d

/-- Model of `v.get(k, default)` on an arbitrary Python value: succeeds on a
dict, raises `AttributeError` on anything else (strings, ints, lists and
`None` have no `.get` method). -/
def pyGetAttr (v : PyVal) (k : String) (d : PyVal) : Except PyErr PyVal :=
  match v with
  | .dict kvs => .ok (dictGetD kvs k d)
  | _ => .error .attributeError

/-- Model of Python `list(v)`: a list maps to itself, a string to the list of
its one-character strings, a dict to the list of its keys; `None`, booleans
and ints are not iterable and raise `TypeError`. -/
def pyIter (v : PyVal) : Except PyErr (List PyVal) :=
  match v with
  | .list xs => .ok xs
  | .str s => .ok (s.toList.map (fun c => .str (String.mk [c])))
  | .dict kvs => .ok (kvs.map (fun kv => .str kv.1))
  | _ => .error .typeError

/-- Model of the Python comparison `v == s` against a string literal: true
exactly when `v` is that string (values of other types never equal a str). -/
def pyEqStr (v : PyVal) (s : String) : Bool :=
  match v with
  | .str t => t == s
  | _ => false

/-- Model of `d.get(k, default)` when `d` is known to be a dict (the
`metadata or {}` value inside `add_turn`). -/
def pyDictGet (v : PyVal) (k : String) (d : PyVal) : PyVal :=
  match v with
  | .dict kvs => dictGetD kvs k d
  | _ => d

/-- Python slice `l[-m:]` for a non-negative `m`: the last `m` elements, except
that `m = 0` gives `l[-0:] = l[0:] = l`, the whole list. -/
def pyTailSlice (m : Nat) (l : List α) : List α :=
  if m = 0 then l else l.drop (l.length - m)

/-- One conversation turn entry, from the `ContextEntry` dataclass in
`session_context.py`. `metadata` is a loosely-typed Python value (normally a
dict), matching `meta.get("user", {})` in the source. -/
structure ContextEntry where
  role : String
  message : String
  timestamp : String
  metadata : PyVal

/-- The `SessionContext` dataclass from `session_context.py`. `last_activity`
is a `datetime` in the source, modelled as an abstract `Nat` clock value; the
async lock has no observable effect on the sequential semantics embedded
here. -/
structure SessionContext where
  user_id : String
  session_id : String
  conversation_history : List ContextEntry := []
  max_turns : Nat := 5
  current_cart_id : Option String := Option.none
  recent_product_searches : List PyVal := []
  recent_products_viewed : List PyVal := []
  shipping_address : Option (List (String × String)) := Option.none
  user_preferences : List (String × PyVal) := []
  last_activity : Nat := 0

/-- `SessionContext.add_turn`. The two appended entries share the single
`now = datetime.utcnow().isoformat()` string computed at the top of the
method; `activity_now` stands for the second `datetime.utcnow()` call that
sets `last_activity` at the end. The window trim is the Python statement
`if len(h) > max_messages: h = h[-max_messages:]`. -/
def SessionContext.add_turn (ctx : SessionContext) (user_message assistant_response : String)
    (metadata : Option PyVal) (now : String) (activity_now : Nat) : SessionContext :=
  let meta := metadata.getD (.dict [])
  let h1 := ctx.conversation_history ++
    [ { role := "user", message := user_message, timestamp := now,
        metadata := pyDictGet meta "user" (.dict []) },
      { role := "assistant", message := assistant_response, timestamp := now,
        metadata := pyDictGet meta "assistant" (.dict []) } ]
  let max_messages := ctx.max_turns * 2
  let h2 := if h1.length > max_messages then pyTailSlice max_messages h1 else h1
  { ctx with conversation_history := h2, last_activity := activity_now }

/-- `SessionContext.add_product_search`. Appends a search entry dict and trims
the list to its last 3 elements via `l[-3:]`; it does not touch
`last_activity`. -/
def SessionContext.add_product_search (ctx : SessionContext) (query : String)
    (results : List PyVal) (now : String) (limit : Nat := 5) : SessionContext :=
  let search_entry : PyVal := .dict
    [ ("query", .str query),
      ("results", .list (results.take limit)),
      ("timestamp", .str now),
      ("result_count", .int results.length) ]
  let l1 := ctx.recent_product_searches ++ [search_entry]
  let l2 := if l1.length > 3 then pyTailSlice 3 l1 else l1
  { ctx with recent_product_searches := l2 }

/-- `SessionContext.add_product_view`. Appends a compact view record and trims
to the last 10 via `l[-10:]`; it does not touch `last_activity`. -/
def SessionContext.add_product_view (ctx : SessionContext) (product : PyVal)
    (now : String) : SessionContext :=
  let view_entry : PyVal := .dict
    [ ("product_id", pyDictGet product "id" .none),
      ("title", pyDictGet product "title" .none),
      ("price", pyDictGet (pyDictGet (pyDictGet product "priceRange" (.dict []))
          "minVariantPrice" (.dict [])) "amount" .none),
      ("timestamp", .str now) ]
  let l1 := ctx.recent_products_viewed ++ [view_entry]
  let l2 := if l1.length > 10 then pyTailSlice 10 l1 else l1
  { ctx with recent_products_viewed := l2 }

/-- `SessionContext.update_cart`: sets the current cart id and nothing else. -/
def SessionContext.update_cart (ctx : SessionContext) (cart_id : String) : SessionContext :=
  { ctx with current_cart_id := some cart_id }

/-- `SessionContext.update_shipping_address`: stores the address and nothing
else. -/
def SessionContext.update_shipping_address (ctx : SessionContext)
    (address : List (String × String)) : SessionContext :=
  { ctx with shipping_address := some address }

/-- In-place update of one key of an association-list dict, as Python
`dict[k] = v` behaves during `dict.update`: an existing key keeps its
position, a new key is appended. -/
def dictSet (kvs : List (String × PyVal)) (k : String) (v : PyVal) : List (String × PyVal) :=
  if kvs.any (fun kv => kv.1 == k) then
    kvs.map (fun kv => if kv.1 == k then (k, v) else kv)
  else
    kvs ++ [(k, v)]

/-- `SessionContext.update_preferences`: Python `dict.update`, merging the
given pairs into the stored preferences; it does not touch `last_activity`. -/
def SessionContext.update_preferences (ctx : SessionContext)
    (preferences : List (String × PyVal)) : SessionContext :=
  { ctx with user_preferences :=
      preferences.foldl (fun acc kv => dictSet acc kv.1 kv.2) ctx.user_preferences }

/-- The dict `ContextEntry.to_dict` produces via `asdict`: all four fields are
always present. -/
structure EntryData where
  role : String
  message : String
  timestamp : String
  metadata : PyVal

/-- `ContextEntry.to_dict`. -/
def ContextEntry.to_dict (e : ContextEntry) : EntryData :=
  { role := e.role, message := e.message, timestamp := e.timestamp, metadata := e.metadata }

/-- `ContextEntry(**entry_data)` applied to a serialized entry dict. -/
def ContextEntry.of_data (d : EntryData) : ContextEntry :=
  { role := d.role, message := d.message, timestamp := d.timestamp, metadata := d.metadata }

/-- The dict produced by `SessionContext.to_dict`. Fields read back through
`data.get(...)` in `from_dict` are `Option`-valued here, so that the defaults
taken when a key is absent are part of the model; `to_dict` itself always
writes every key. `user_id` and `session_id` are read with `data[...]`, which
assumes presence. -/
structure SessionData where
  user_id : String
  session_id : String
  conversation_history : Option (List EntryData)
  max_turns : Option Nat
  current_cart_id : Option (Option String)
  recent_product_searches : Option (List PyVal)
  recent_products_viewed : Option (List PyVal)
  shipping_address : Option (Option (List (String × String)))
  user_preferences : Option (List (String × PyVal))

/-- `SessionContext.to_dict`. -/
def SessionContext.to_dict (ctx : SessionContext) : SessionData :=
  { user_id := ctx.user_id,
    session_id := ctx.session_id,
    conversation_history := some (ctx.conversation_history.map ContextEntry.to_dict),
    max_turns := some ctx.max_turns,
    current_cart_id := some ctx.current_cart_id,
    recent_product_searches := some ctx.recent_product_searches,
    recent_products_viewed := some ctx.recent_products_viewed,
    shipping_address := some ctx.shipping_address,
    user_preferences := some ctx.user_preferences }

/-- `SessionContext.from_dict`. The constructor call gives the reconstructed
context a fresh `last_activity` (`datetime.utcnow`), modelled by the explicit
`created_now` clock argument; every other field is restored from the dict with
the source's `.get` defaults. -/
def SessionContext.from_dict (data : SessionData) (created_now : Nat) : SessionContext :=
  { user_id := data.user_id,
    session_id := data.session_id,
    max_turns := data.max_turns.getD 5,
    conversation_history := (data.conversation_history.getD []).map ContextEntry.of_data,
    current_cart_id := data.current_cart_id.getD Option.none,
    recent_product_searches := data.recent_product_searches.getD [],
    recent_products_viewed := data.recent_products_viewed.getD [],
    shipping_address := data.shipping_address.getD Option.none,
    user_preferences := data.user_preferences.getD [],
    last_activity := created_now }

/-- The external inputs of one `add_turn` call: the two messages, the optional
metadata dict, the shared timestamp string for the two entries, and the clock
value stored into `last_activity`. -/
structure Turn where
  user : String
  assistant : String
  metadata : Option PyVal := Option.none
  now : String := ""
  act : Nat := 0

/-- A freshly created `SessionContext` (empty history, default shopping
state) with a chosen `max_turns`. -/
def freshContext (uid sid : String) (m : Nat) : SessionContext :=
  { user_id := uid, session_id := sid, max_turns := m }

/-- The user-role entry one turn appends. -/
def Turn.userEntry (t : Turn) : ContextEntry :=
  { role := "user", message := t.user, timestamp := t.now,
    metadata := pyDictGet (t.metadata.getD (.dict [])) "user" (.dict []) }

/-- The assistant-role entry one turn appends. -/
def Turn.assistantEntry (t : Turn) : ContextEntry :=
  { role := "assistant", message := t.assistant, timestamp := t.now,
    metadata := pyDictGet (t.metadata.getD (.dict [])) "assistant" (.dict []) }

/-- The pair of entries one turn appends, user first. -/
def Turn.entryPair (t : Turn) : List ContextEntry :=
  [t.userEntry, t.assistantEntry]

/-- The untrimmed conversation transcript of a sequence of turns. -/
def fullHist (ts : List Turn) : List ContextEntry :=
  ts.flatMap Turn.entryPair

/-- Run a sequence of `add_turn` calls on a fresh context. -/
def runTurns (uid sid : String) (m : Nat) (ts : List Turn) : SessionContext :=
  ts.foldl (fun c t => c.add_turn t.user t.assistant t.metadata t.now t.act)
    (freshContext uid sid m)

/-- One `{key, value}` attribute of a cart input, as built by
`add_attribution_to_cart_input` in `cart_attribution.py`. -/
structure CartAttr where
  key : String
  value : String
deriving DecidableEq, Repr

/-- The cart-input dict passed to `add_attribution_to_cart_input`. The
`attributes` entry is `Option`-valued because the function first checks
`if "attributes" not in cart_input`; every other entry of the dict (lines,
buyer identity, ...) is carried opaquely in `rest` and never touched. -/
structure CartInput where
  attributes : Option (List CartAttr) := Option.none
  rest : List (String × PyVal) := []

/-- The `attribution_attributes` list built inside
`add_attribution_to_cart_input`, before `None` entries are filtered out. The
fourth entry exists only when `session_metadata` is truthy (not `None` and not
the empty dict); its value is `str(session_metadata.get("timestamp", ""))`,
with metadata values modelled as strings so that `str` is the identity. -/
def attribution_attributes (conversation_id user_id : String)
    (session_metadata : Option (List (String × String))) : List (Option CartAttr) :=
  [ some { key := "_agent_conversation_id", value := conversation_id },
    some { key := "_agent_user_id", value := user_id },
    some { key := "_agent_source", value := "behold_whatsapp_agent" },
    match session_metadata with
    | some m =>
        if m.isEmpty then Option.none
        else some { key := "_agent_timestamp",
                    value := (m.find? (fun kv => kv.1 == "timestamp")).elim "" (fun kv => kv.2) }
    | Option.none => Option.none ]

/-- `add_attribution_to_cart_input` from `cart_attribution.py`: ensure the
`attributes` key exists, then `extend` it with the non-`None` attribution
attributes. The function never inspects the existing attributes and never
shortens a value. -/
def add_attribution_to_cart_input (cart_input : CartInput) (conversation_id user_id : String)
    (session_metadata : Option (List (String × String))) : CartInput :=
  let base :=
    match cart_input.attributes with
    | Option.none => { cart_input with attributes := some [] }
    | some _ => cart_input
  let added := (attribution_attributes conversation_id user_id session_metadata).filterMap id
  { base with attributes := some ((base.attributes.getD []) ++ added) }

/-- The `attribution` result dict of `extract_attribution_from_order`,
initialised with `None` values and `is_agent_attributed = False`. -/
structure Attribution where
  conversation_id : PyVal := .none
  user_id : PyVal := .none
  source : PyVal := .none
  timestamp : PyVal := .none
  is_agent_attributed : Bool := false

/-- The loop body of `extract_attribution_from_order` for one attribute:
`key = attr.get("key", attr.get("name", ""))`, `value = attr.get("value", "")`,
then the `if`/`elif` chain on the reserved keys. Raises `AttributeError`
whenever `attr` is not a dict, exactly where Python's `.get` would. -/
def applyAttr (acc : Attribution) (attr : PyVal) : Except PyErr Attribution := do
  let nameDefault ← pyGetAttr attr "name" (.str "")
  let key ← pyGetAttr attr "key" nameDefault
  let value ← pyGetAttr attr "value" (.str "")
  if pyEqStr key "_agent_conversation_id" then
    return { acc with conversation_id := value, is_agent_attributed := true }
  else if pyEqStr key "_agent_user_id" then
    return { acc with user_id := value }
  else if pyEqStr key "_agent_source" then
    return { acc with source := value }
  else if pyEqStr key "_agent_timestamp" then
    return { acc with timestamp := value }
  else
    return acc

/-- `extract_attribution_from_order` from `cart_attribution.py`: read the two
attribute sources with their fallback spellings, concatenate
`list(custom) + list(note)`, and fold the reserved-key loop over the result.
The `Except` layer carries exactly the exceptions Python would raise
(`list(...)` on a non-iterable, `.get` on a non-dict). -/
def extract_attribution_from_order (order_data : List (String × PyVal)) :
    Except PyErr Attribution := do
  let custom_attributes :=
    dictGetD order_data "customAttributes" (dictGetD order_data "custom_attributes" (.list []))
  let note_attributes :=
    dictGetD order_data "noteAttributes" (dictGetD order_data "note_attributes" (.list []))
  let customL ← pyIter custom_attributes
  let noteL ← pyIter note_attributes
  let all_attributes := customL ++ noteL
  all_attributes.foldlM applyAttr {}

/-- Whether a Python value is a dict. -/
def isDictB (a : PyVal) : Bool :=
  match a with
  | .dict _ => true
  | _ => false

/-- A (present) attribute source is well formed when it is a list whose
elements are all dicts — the shape real order payloads have and the only
shape the extraction loop survives. -/
def wellFormedSource (v : PyVal) : Bool :=
  match v with
  | .list xs => xs.all isDictB
  | _ => false

/-- The elements of an attribute source, when it is a list. -/
def sourceList (v : PyVal) : List PyVal :=
  match v with
  | .list xs => xs
  | _ => []

/-- The merged attribute list `list(custom) + list(note)` the extraction loop
runs over, for an order whose sources are well formed. -/
def mergedAttributes (order_data : List (String × PyVal)) : List PyVal :=
  sourceList
      (dictGetD order_data "customAttributes"
        (dictGetD order_data "custom_attributes" (.list []))) ++
    sourceList
      (dictGetD order_data "noteAttributes"
        (dictGetD order_data "note_attributes" (.list [])))

/-- Both attribute sources of an order payload (after the fallback-key
defaulting) are well formed. -/
def wellFormedSources (order_data : List (String × PyVal)) : Bool :=
  wellFormedSource
      (dictGetD order_data "customAttributes"
        (dictGetD order_data "custom_attributes" (.list []))) &&
    wellFormedSource
      (dictGetD order_data "noteAttributes"
        (dictGetD order_data "note_attributes" (.list [])))

/-- The key the extraction loop computes for one attribute dict:
`attr.get("key", attr.get("name", ""))`. -/
def attrKeyOf (kvs : List (String × PyVal)) : PyVal :=
  dictGetD kvs "key" (dictGetD kvs "name" (.str ""))

/-- An attribute value matches a reserved key string when the loop's `==`
comparison against that string literal is true. -/
def attrMatches (a : PyVal) (s : String) : Bool :=
  match a with
  | .dict kvs => pyEqStr (attrKeyOf kvs) s
  | _ => false

/-- The reserved attribution keys the extraction loop looks for. -/
def reservedKeys : List String :=
  ["_agent_conversation_id", "_agent_user_id", "_agent_source", "_agent_timestamp"]

/-- A row of the `orders` table (`database.py`): `id` is the Shopify order id
and the table's primary key. Monetary columns are SQL floats, modelled as
rationals. -/
structure OrderRow where
  id : String
  conversation_id : String
  user_id : String
  cart_id : Option String
  created_at : Nat
  order_number : Option String
  total_amount : Rat
  subtotal_amount : Rat
  tax_amount : Rat
  shipping_amount : Rat
  discount_amount : Rat
  currency : String
  items : List PyVal
  customer_email : Option String
  attribution_data : List (String × PyVal)

/-- The columns of a `conversations` row that `record_order_completion`
reads or writes; `id` is the primary key. -/
structure ConversationRow where
  id : String
  user_id : String
  order_completed : Bool := false
  total_revenue : Rat := 0

/-- The columns of a `carts` row that `record_order_completion` reads or
writes; `id` is the primary key. -/
structure CartRow where
  id : String
  conversation_id : String
  converted_to_order : Bool := false
  order_id : Option String := Option.none

/-- The relational store as `record_order_completion` sees it. -/
structure Db where
  orders : List OrderRow := []
  conversations : List ConversationRow := []
  carts : List CartRow := []

/-- The arguments of `TrackingService.record_order_completion`. -/
structure OrderParams where
  order_id : String
  conversation_id : String
  user_id : String
  cart_id : Option String := Option.none
  order_number : Option String := Option.none
  total_amount : Rat
  subtotal_amount : Rat := 0
  tax_amount : Rat := 0
  shipping_amount : Rat := 0
  discount_amount : Rat := 0
  currency : String := "BRL"
  items : List PyVal := []
  customer_email : Option String := Option.none
  attribution_data : List (String × PyVal) := []

/-- The `Order(...)` row built by `record_order_completion`;
`created_at = datetime.now()` is the explicit `now` argument. -/
def OrderParams.toRow (p : OrderParams) (now : Nat) : OrderRow :=
  { id := p.order_id, conversation_id := p.conversation_id, user_id := p.user_id,
    cart_id := p.cart_id, created_at := now, order_number := p.order_number,
    total_amount := p.total_amount, subtotal_amount := p.subtotal_amount,
    tax_amount := p.tax_amount, shipping_amount := p.shipping_amount,
    discount_amount := p.discount_amount, currency := p.currency, items := p.items,
    customer_email := p.customer_email, attribution_data := p.attribution_data }

/-- The `session.query(Conversation).filter_by(id=...).first()` update: mark
the first row with the given id order-completed and add the order total to its
revenue; if no row matches, change nothing. -/
def markConversationOrder : List ConversationRow → String → Rat → List ConversationRow
  | [], _, _ => []
  | c :: rest, cid, amount =>
      if c.id == cid then
        { c with order_completed := true, total_revenue := c.total_revenue + amount } :: rest
      else
        c :: markConversationOrder rest cid amount

/-- The `session.query(Cart).filter_by(id=...).first()` update: mark the first
cart with the given id converted and record the order id; if no row matches,
change nothing. -/
def markCartConverted : List CartRow → String → String → List CartRow
  | [], _, _ => []
  | c :: rest, cid, oid =>
      if c.id == cid then
        { c with converted_to_order := true, order_id := some oid } :: rest
      else
        c :: markCartConverted rest cid oid

/-- Failure modes of `session.commit()`: a primary-key violation on the
`orders` insert (`IntegrityError`), or any backend failure (connection lost,
timeout, ...) injected through the `commit_fails` flag. -/
inductive DbError where
  | integrityError : DbError
  | backendError : DbError
deriving DecidableEq, Repr

/-- `TrackingService.record_order_completion` from `tracking_service.py`.

The `try` block stages the `Order` insert and the conversation/cart updates,
then calls `session.commit()`; the commit raises `IntegrityError` when an
order with the same primary key `id` already exists (`database.py` declares
`Order.id` as primary key), and `backendError` stands for any other
persistence failure, injected via `commit_fails`. The `except` clause rolls
the session back, logs, and — unlike `get_or_create_user` and
`start_conversation` in the same file — does **not** re-raise, so the method
returns `None` normally on every path.

The returned `Bool` records whether the call propagated an exception to its
caller; the source's `except Exception: session.rollback(); logger.error(...)`
makes it `false` on every path. -/
def record_order_completion (db : Db) (p : OrderParams) (now : Nat)
    (commit_fails : Bool) : Db × Bool :=
  let staged : Db :=
    { orders := db.orders ++ [p.toRow now],
      conversations := markConversationOrder db.conversations p.conversation_id p.total_amount,
      carts :=
        match p.cart_id with
        | some cid => markCartConverted db.carts cid p.order_id
        | Option.none => db.carts }
  let commit : Except DbError Db :=
    if commit_fails then .error .backendError
    else if db.orders.any (fun o => o.id == p.order_id) then .error .integrityError
    else .ok staged
  match commit with
  | .ok db2 => (db2, false)
  | .error _ => (db, false)

/-- The revenue the store holds for a conversation id: the `total_revenue`
column of the first (by primary key, only) matching row. -/
def revenueOf (db : Db) (cid : String) : Option Rat :=
  (db.conversations.find? (fun c => c.id == cid)).map (fun c => c.total_revenue)

/-- Reduction modulo `2 ^ 32`, the word size of SHA-256 arithmetic. -/
def w32 (n : Nat) : Nat := n % 4294967296

/-- Rotate a 32-bit word right by `n` bit positions. -/
def rotr32 (n x : Nat) : Nat := w32 ((x >>> n) ||| (x <<< (32 - n)))

/-- The SHA-256 `Ch` function. -/
def shaCh (x y z : Nat) : Nat := (x &&& y) ^^^ ((x ^^^ 4294967295) &&& z)

/-- The SHA-256 `Maj` function. -/
def shaMaj (x y z : Nat) : Nat := (x &&& y) ^^^ (x &&& z) ^^^ (y &&& z)

/-- The SHA-256 big sigma-0 function. -/
def bsig0 (x : Nat) : Nat := rotr32 2 x ^^^ rotr32 13 x ^^^ rotr32 22 x

/-- The SHA-256 big sigma-1 function. -/
def bsig1 (x : Nat) : Nat := rotr32 6 x ^^^ rotr32 11 x ^^^ rotr32 25 x

/-- The SHA-256 small sigma-0 function. -/
def ssig0 (x : Nat) : Nat := rotr32 7 x ^^^ rotr32 18 x ^^^ (x >>> 3)

/-- The SHA-256 small sigma-1 function. -/
def ssig1 (x : Nat) : Nat := rotr32 17 x ^^^ rotr32 19 x ^^^ (x >>> 10)

/-- The 64 SHA-256 round constants (FIPS 180-4), written in decimal. -/
def K256 : List Nat :=
  [ 1116352408, 1899447441, 3049323471, 3921009573,
    961987163, 1508970993, 2453635748, 2870763221,
    3624381080, 310598401, 607225278, 1426881987,
    1925078388, 2162078206, 2614888103, 3248222580,
    3835390401, 4022224774, 264347078, 604807628,
    770255983, 1249150122, 1555081692, 1996064986,
    2554220882, 2821834349, 2952996808, 3210313671,
    3336571891, 3584528711, 113926993, 338241895,
    666307205, 773529912, 1294757372, 1396182291,
    1695183700, 1986661051, 2177026350, 2456956037,
    2730485921, 2820302411, 3259730800, 3345764771,
    3516065817, 3600352804, 4094571909, 275423344,
    430227734, 506948616, 659060556, 883997877,
    958139571, 1322822218, 1537002063, 1747873779,
    1955562222, 2024104815, 2227730452, 2361852424,
    2428436474, 2756734187, 3204031479, 3329325298 ]

/-- The eight SHA-256 working registers. -/
structure Regs where
  a : Nat
  b : Nat
  c : Nat
  d : Nat
  e : Nat
  f : Nat
  g : Nat
  h : Nat

/-- The SHA-256 initial register values (FIPS 180-4), written in decimal. -/
def initRegs : Regs :=
  ⟨1779033703, 3144134277, 1013904242, 2773480762, 1359893119, 2600822924, 528734635, 1541459225⟩

/-- A value as `n` big-endian bytes. -/
def beBytes (n v : Nat) : List Nat :=
  (List.range n).map (fun i => (v >>> (8 * (n - 1 - i))) % 256)

/-- The `i`-th big-endian 32-bit word of a 64-byte block. -/
def beWordAt (block : List Nat) (i : Nat) : Nat :=
  (block.getD (4 * i) 0 <<< 24) ||| (block.getD (4 * i + 1) 0 <<< 16) |||
    (block.getD (4 * i + 2) 0 <<< 8) ||| block.getD (4 * i + 3) 0

/-- One step of the message-schedule extension, appending word `W[t]` for
`t = w.length`. -/
def extendW (w : List Nat) : List Nat :=
  let t := w.length
  w ++ [w32 (ssig1 (w.getD (t - 2) 0) + w.getD (t - 7) 0 + ssig0 (w.getD (t - 15) 0) +
    w.getD (t - 16) 0)]

/-- The 64-word message schedule of one block. -/
def schedule (block : List Nat) : List Nat :=
  (List.range 48).foldl (fun w _ => extendW w) ((List.range 16).map (beWordAt block))

/-- One SHA-256 compression round. -/
def shaStep (k w : Nat) (r : Regs) : Regs :=
  let t1 := w32 (r.h + bsig1 r.e + shaCh r.e r.f r.g + k + w)
  let t2 := w32 (bsig0 r.a + shaMaj r.a r.b r.c)
  ⟨w32 (t1 + t2), r.a, r.b, r.c, w32 (r.d + t1), r.e, r.f, r.g⟩

/-- SHA-256 compression of one 64-byte block. -/
def compress (r0 : Regs) (block : List Nat) : Regs :=
  let rEnd := (K256.zip (schedule block)).foldl (fun r kw => shaStep kw.1 kw.2 r) r0
  ⟨w32 (r0.a + rEnd.a), w32 (r0.b + rEnd.b), w32 (r0.c + rEnd.c), w32 (r0.d + rEnd.d),
   w32 (r0.e + rEnd.e), w32 (r0.f + rEnd.f), w32 (r0.g + rEnd.g), w32 (r0.h + rEnd.h)⟩

/-- SHA-256 padding: a `0x80` byte, zeros to 56 mod 64, then the bit length as
eight big-endian bytes. -/
def sha256Pad (msg : List Nat) : List Nat :=
  msg ++ [128] ++ List.replicate ((119 - msg.length % 64) % 64) 0 ++ beBytes 8 (8 * msg.length)

/-- SHA-256 of a byte sequence (`hashlib.sha256(...).digest()`), as the 32
digest bytes. -/
def sha256 (msg : List Nat) : List Nat :=
  let p := sha256Pad msg
  let r := (List.range (p.length / 64)).foldl
    (fun r i => compress r ((p.drop (64 * i)).take 64)) initRegs
  beBytes 4 r.a ++ beBytes 4 r.b ++ beBytes 4 r.c ++ beBytes 4 r.d ++
    beBytes 4 r.e ++ beBytes 4 r.f ++ beBytes 4 r.g ++ beBytes 4 r.h

/-- HMAC-SHA256 (`hmac.new(key, msg, hashlib.sha256).digest()`): block size 64,
key hashed if longer than a block, zero-padded, inner pad `0x36`, outer pad
`0x5c`. -/
def hmacSha256 (key msg : List Nat) : List Nat :=
  let k0 := if key.length > 64 then sha256 key else key
  let kp := k0 ++ List.replicate (64 - k0.length) 0
  sha256 ((kp.map (fun b => b ^^^ 92)) ++ sha256 ((kp.map (fun b => b ^^^ 54)) ++ msg))

/-- The base64 alphabet. -/
def b64Chars : List Char :=
  "ABCDEFGHIJKLMNOPQRSTUVWXYZabcdefghijklmnopqrstuvwxyz0123456789+/".toList

/-- The base64 character of a 6-bit value. -/
def b64Char (n : Nat) : Char := b64Chars.getD n 'A'

/-- Split a byte sequence into base64 input groups of three, the last group
possibly shorter. -/
def b64Groups : List Nat → List (List Nat)
  | [] => []
  | [a] => [[a]]
  | [a, b] => [[a, b]]
  | a :: b :: c :: rest => [a, b, c] :: b64Groups rest

/-- Encode one input group as four base64 characters, `=`-padded as
`base64.b64encode` does. -/
def b64EncGroup : List Nat → List Char
  | [a, b, c] =>
      let n := a * 65536 + b * 256 + c
      [b64Char (n / 262144), b64Char (n / 4096 % 64), b64Char (n / 64 % 64), b64Char (n % 64)]
  | [a, b] =>
      let n := a * 65536 + b * 256
      [b64Char (n / 262144), b64Char (n / 4096 % 64), b64Char (n / 64 % 64), '=']
  | [a] =>
      let n := a * 65536
      [b64Char (n / 262144), b64Char (n / 4096 % 64), '=', '=']
  | _ => []

/-- `base64.b64encode(bs).decode()`: the padded base64 string of a byte
sequence. -/
def b64encode (bs : List Nat) : String :=
  String.mk ((b64Groups bs).flatMap b64EncGroup)

/-- The 6-bit value of a base64 character (first index in the alphabet). -/
def b64CharIndex (c : Char) : Nat := b64Chars.indexOf c

/-- Decode one 4-character base64 group, honouring `=` padding. Used only to
establish that `b64encode` is injective on byte sequences. -/
def b64DecGroup : List Char → List Nat
  | [c1, c2, c3, c4] =>
      if c3 = '=' then
        [b64CharIndex c1 * 4 + b64CharIndex c2 / 16]
      else if c4 = '=' then
        let n := b64CharIndex c1 * 262144 + b64CharIndex c2 * 4096 + b64CharIndex c3 * 64
        [n / 65536, n / 256 % 256]
      else
        let n := b64CharIndex c1 * 262144 + b64CharIndex c2 * 4096 + b64CharIndex c3 * 64 +
          b64CharIndex c4
        [n / 65536, n / 256 % 256, n % 256]
  | _ => []

/-- Split a character sequence into groups of four, dropping any ragged
tail. -/
def b64Chunks4 : List Char → List (List Char)
  | c1 :: c2 :: c3 :: c4 :: rest => [c1, c2, c3, c4] :: b64Chunks4 rest
  | _ => []

/-- Decode a padded base64 string back to bytes (left inverse of
`b64encode` on byte sequences). -/
def b64decode (s : String) : List Nat :=
  (b64Chunks4 s.toList).flatMap b64DecGroup

/-- `verify_shopify_webhook` from `analytics/webhook_handler.py`: compute
HMAC-SHA256 of the raw body under the secret, base64-encode it, and compare
with the header using `hmac.compare_digest` (string equality; the constant
time of the comparison has no functional content). A missing header makes
`compare_digest` raise `TypeError`, which the function's blanket `except`
turns into `False`; `data` is the raw body bytes and `secret` the UTF-8 bytes
of the configured secret string. -/
def verify_shopify_webhook (data : List Nat) (hmac_header : Option String)
    (secret : List Nat) : Bool :=
  let digest := hmacSha256 secret data
  let computed_hmac := b64encode digest
  match hmac_header with
  | some h => computed_hmac == h
  | Option.none => false

/-- A concrete turn used in the scenario statements: messages `u<k>`/`a<k>`,
timestamp string `t<k>`, clock value `k`. -/
def mkTurn (u a now : String) (act : Nat) : Turn :=
  { user := u, assistant := a, now := now, act := act }

/-- The seven concrete turns of the window scenario. -/
def sevenTurns : List Turn :=
  [ mkTurn "u1" "a1" "t1" 1, mkTurn "u2" "a2" "t2" 2, mkTurn "u3" "a3" "t3" 3,
    mkTurn "u4" "a4" "t4" 4, mkTurn "u5" "a5" "t5" 5, mkTurn "u6" "a6" "t6" 6,
    mkTurn "u7" "a7" "t7" 7 ]

/-- A concrete store with one conversation and no orders, for the
order-recording case. -/
def caseDb : Db :=
  { orders := [], conversations := [{ id := "conv1", user_id := "u1" }], carts := [] }

/-- A concrete order payload for the order-recording case. -/
def caseOrder : OrderParams :=
  { order_id := "o1", conversation_id := "conv1", user_id := "u1", total_amount := 10 }

/-!
Theorems. Helper lemmas are shared; each claim is settled by a single named
theorem (with its witness or counterexample where applicable).
-/

theorem pyTailSlice_eq_rtake {m : Nat} (hm : m ≠ 0) (l : List α) :
    pyTailSlice m l = l.rtake m := by
  simp [pyTailSlice, hm, List.rtake]

theorem pyTailSlice_of_le {m : Nat} {l : List α} (h : l.length ≤ m) :
    pyTailSlice m l = l := by
  unfold pyTailSlice
  rcases Nat.eq_zero_or_pos m with h0 | h0
  · simp [h0]
  · have : l.length - m = 0 := by omega
    simp [this, Nat.pos_iff_ne_zero.mp h0]

theorem rtake_append_rtake (m : Nat) (xs ys : List α) :
    (xs.rtake m ++ ys).rtake m = (xs ++ ys).rtake m := by
  rw [List.rtake_eq_reverse_take_reverse, List.rtake_eq_reverse_take_reverse,
    List.rtake_eq_reverse_take_reverse, List.reverse_append, List.reverse_append,
    List.reverse_reverse, List.take_append_eq_append_take, List.take_append_eq_append_take,
    List.take_take]
  congr 2
  · rw [Nat.min_eq_left (Nat.sub_le _ _)]

theorem pyTailSlice_absorb (m : Nat) (xs ys : List α) :
    pyTailSlice m (pyTailSlice m xs ++ ys) = pyTailSlice m (xs ++ ys) := by
  rcases Nat.eq_zero_or_pos m with h0 | h0
  · simp [pyTailSlice, h0]
  · have hm : m ≠ 0 := Nat.pos_iff_ne_zero.mp h0
    rw [pyTailSlice_eq_rtake hm, pyTailSlice_eq_rtake hm, pyTailSlice_eq_rtake hm,
      rtake_append_rtake]

theorem pyTailSlice_idem (m : Nat) (l : List α) :
    pyTailSlice m (pyTailSlice m l) = pyTailSlice m l := by
  have h := pyTailSlice_absorb m l []
  simpa using h

theorem add_turn_history (ctx : SessionContext) (t : Turn) :
    (ctx.add_turn t.user t.assistant t.metadata t.now t.act).conversation_history =
      pyTailSlice (ctx.max_turns * 2) (ctx.conversation_history ++ t.entryPair) := by
  show (if (ctx.conversation_history ++ t.entryPair).length > ctx.max_turns * 2 then
      pyTailSlice (ctx.max_turns * 2) (ctx.conversation_history ++ t.entryPair)
    else ctx.conversation_history ++ t.entryPair) = _
  split
  · rfl
  · rw [pyTailSlice_of_le]
    omega

theorem add_turn_max_turns (ctx : SessionContext) (u a : String) (meta : Option PyVal)
    (now : String) (act : Nat) :
    (ctx.add_turn u a meta now act).max_turns = ctx.max_turns := rfl

theorem fullHist_cons (t : Turn) (ts : List Turn) :
    fullHist (t :: ts) = t.entryPair ++ fullHist ts := rfl

theorem runTurns_foldl_history (m : Nat) (ts : List Turn) (ctx : SessionContext)
    (hm : ctx.max_turns = m)
    (hfix : pyTailSlice (m * 2) ctx.conversation_history = ctx.conversation_history) :
    (ts.foldl (fun c t => c.add_turn t.user t.assistant t.metadata t.now t.act)
        ctx).conversation_history =
      pyTailSlice (m * 2) (ctx.conversation_history ++ fullHist ts) := by
  induction ts generalizing ctx with
  | nil =>
      simpa [fullHist] using hfix.symm
  | cons t ts ih =>
      rw [List.foldl_cons]
      rw [ih (ctx.add_turn t.user t.assistant t.metadata t.now t.act) (by rw [← hm]; rfl)
        (by rw [add_turn_history, hm, pyTailSlice_idem])]
      rw [add_turn_history, hm, pyTailSlice_absorb, fullHist_cons, List.append_assoc]

theorem runTurns_history (uid sid : String) (m : Nat) (ts : List Turn) :
    (runTurns uid sid m ts).conversation_history = pyTailSlice (m * 2) (fullHist ts) := by
  have h := runTurns_foldl_history m ts (freshContext uid sid m) rfl (by simp [freshContext, pyTailSlice])
  simpa [runTurns, freshContext] using h

/-- C3 counterexample: a `SessionContext` with `max_turns = 0` violates the
claimed bound `conversation_history.length ≤ 2 × max_turns` after a single
`add_turn`, because the Python trim `h[-max_messages:]` with
`max_messages = 0` is `h[-0:] = h`, the whole list. -/
theorem add_turn_window_zero_counterexample :
    2 * (runTurns "u" "s" 0 [mkTurn "u1" "a1" "t1" 1]).max_turns <
      (runTurns "u" "s" 0 [mkTurn "u1" "a1" "t1" 1]).conversation_history.length := by
  decide

/-- C3 (amended): for every `SessionContext` with `max_turns ≥ 1` (the default
is 5) and every sequence of `add_turn` calls starting from a fresh context,
the history length never exceeds `2 × max_turns` and the retained entries are
exactly the most recent ones in call order (the final suffix of the untrimmed
transcript); a context with `max_turns = 5` receiving 7 turns retains exactly
turns 3 through 7, with turn 3's user message as the oldest entry. The
`max_turns = 0` case fails (see the counterexample) because Python's `h[-0:]`
slice is the whole list. -/
theorem add_turn_window_bound (uid sid : String) (m : Nat) (ts : List Turn) (hm : 1 ≤ m) :
    (runTurns uid sid m ts).conversation_history.length ≤ 2 * m ∧
    (runTurns uid sid m ts).conversation_history =
      (fullHist ts).drop ((fullHist ts).length - 2 * m) ∧
    (runTurns "u" "s" 5 sevenTurns).conversation_history = fullHist (sevenTurns.drop 2) ∧
    ((runTurns "u" "s" 5 sevenTurns).conversation_history.head?.map ContextEntry.message) =
      some "u3" := by
  refine ⟨?_, ?_, ?_, ?_⟩
  · rw [runTurns_history, pyTailSlice_eq_rtake (by omega), List.rtake, List.length_drop]
    omega
  · rw [runTurns_history, pyTailSlice_eq_rtake (by omega), List.rtake, Nat.mul_comm]
  · rfl
  · rfl

/-- C3 witness: the amended window bound applied to the concrete 7-turn,
5-cap scenario. -/
theorem add_turn_window_bound_case :
    1 ≤ 5 ∧ (runTurns "u" "s" 5 sevenTurns).conversation_history.length ≤ 2 * 5 :=
  ⟨by omega, (add_turn_window_bound "u" "s" 5 sevenTurns (by omega)).1⟩

theorem fullHist_length (ts : List Turn) : (fullHist ts).length = 2 * ts.length := by
  induction ts with
  | nil => rfl
  | cons t ts ih =>
      rw [fullHist_cons, List.length_append, ih, List.length_cons]
      simp [Turn.entryPair]
      omega

theorem fullHist_drop (ts : List Turn) (k : Nat) :
    (fullHist ts).drop (2 * k) = fullHist (ts.drop k) := by
  induction ts generalizing k with
  | nil => simp [fullHist]
  | cons t ts ih =>
      cases k with
      | zero => simp
      | succ k =>
          rw [fullHist_cons, show 2 * (k + 1) = 2 * k + 1 + 1 by omega]
          show (t.userEntry :: t.assistantEntry :: fullHist ts).drop (2 * k + 1 + 1) = _
          rw [List.drop_succ_cons, List.drop_succ_cons, ih, List.drop_succ_cons]

theorem runTurns_suffix (uid sid : String) (m : Nat) (ts : List Turn) :
    ∃ ts2 : List Turn, (runTurns uid sid m ts).conversation_history = fullHist ts2 := by
  rcases Nat.eq_zero_or_pos m with h0 | h0
  · refine ⟨ts, ?_⟩
    rw [runTurns_history, h0]
    rfl
  · refine ⟨ts.drop (ts.length - m), ?_⟩
    rw [runTurns_history, pyTailSlice_eq_rtake (by omega), List.rtake, fullHist_length,
      show 2 * ts.length - m * 2 = 2 * (ts.length - m) by omega, fullHist_drop]

theorem fullHist_get?_role (ts : List Turn) (i : Nat) (hi : i < (fullHist ts).length) :
    ((fullHist ts).get? i).map ContextEntry.role =
      some (if i % 2 = 0 then "user" else "assistant") := by
  induction ts generalizing i with
  | nil => simp [fullHist] at hi
  | cons t ts ih =>
      rw [fullHist_cons]
      show ((t.userEntry :: t.assistantEntry :: fullHist ts).get? i).map _ = _
      match i with
      | 0 => rfl
      | 1 => rfl
      | (i + 2) =>
          rw [List.get?_cons_succ, List.get?_cons_succ, Nat.add_mod_right]
          apply ih
          rw [fullHist_cons] at hi
          simp [Turn.entryPair] at hi
          omega

theorem fullHist_get?_timestamp (ts : List Turn) (i : Nat)
    (hi : 2 * i + 1 < (fullHist ts).length) :
    ((fullHist ts).get? (2 * i)).map ContextEntry.timestamp =
      ((fullHist ts).get? (2 * i + 1)).map ContextEntry.timestamp := by
  induction ts generalizing i with
  | nil => simp [fullHist] at hi
  | cons t ts ih =>
      rw [fullHist_cons]
      show ((t.userEntry :: t.assistantEntry :: fullHist ts).get? (2 * i)).map _ =
        ((t.userEntry :: t.assistantEntry :: fullHist ts).get? (2 * i + 1)).map _
      cases i with
      | zero => rfl
      | succ i =>
          rw [show 2 * (i + 1) = 2 * i + 1 + 1 by omega, List.get?_cons_succ,
            List.get?_cons_succ, show 2 * i + 1 + 1 + 1 = (2 * i + 1) + 1 + 1 by omega,
            List.get?_cons_succ, List.get?_cons_succ]
          apply ih
          rw [fullHist_cons] at hi
          simp [Turn.entryPair] at hi
          omega

/-- C9: for every sequence of `add_turn` calls on a fresh `SessionContext`,
the history has even length, entries strictly alternate role `user` then
`assistant`, and the two entries appended by one call share one timestamp
string. -/
theorem add_turn_pair_structure (uid sid : String) (m : Nat) (ts : List Turn) :
    (runTurns uid sid m ts).conversation_history.length % 2 = 0 ∧
    (∀ i, i < (runTurns uid sid m ts).conversation_history.length →
      ((runTurns uid sid m ts).conversation_history.get? i).map ContextEntry.role =
        some (if i % 2 = 0 then "user" else "assistant")) ∧
    (∀ i, 2 * i + 1 < (runTurns uid sid m ts).conversation_history.length →
      ((runTurns uid sid m ts).conversation_history.get? (2 * i)).map ContextEntry.timestamp =
        ((runTurns uid sid m ts).conversation_history.get? (2 * i + 1)).map
          ContextEntry.timestamp) := by
  obtain ⟨ts2, h2⟩ := runTurns_suffix uid sid m ts
  rw [h2]
  exact ⟨by rw [fullHist_length]; omega,
    fun i hi => fullHist_get?_role ts2 i hi,
    fun i hi => fullHist_get?_timestamp ts2 i hi⟩

/-- C9 witness: the pair-structure theorem applied to the concrete 7-turn
run: the entry at index 1 is the assistant half of a turn. -/
theorem add_turn_pair_structure_case :
    ((runTurns "u" "s" 5 sevenTurns).conversation_history.get? 1).map ContextEntry.role =
      some "assistant" := by
  have h := (add_turn_pair_structure "u" "s" 5 sevenTurns).2.1 1 (by decide)
  simpa using h

/-- C6 counterexample: `update_cart` is a real mutation (it changes the cart
id) but leaves `last_activity` untouched — here the context's `last_activity`
still holds the clock value 1 of the earlier `add_turn`, so it does not
reflect the most recent mutation. -/
theorem update_cart_stale_last_activity :
    (((freshContext "u" "s" 5).add_turn "hi" "yo" Option.none "t1" 1).update_cart
        "cart-9").current_cart_id = some "cart-9" ∧
    ((freshContext "u" "s" 5).add_turn "hi" "yo" Option.none "t1" 1).current_cart_id =
      Option.none ∧
    (((freshContext "u" "s" 5).add_turn "hi" "yo" Option.none "t1" 1).update_cart
        "cart-9").last_activity = 1 :=
  ⟨rfl, rfl, rfl⟩

/-- C6 (amended): among the mutators of `SessionContext`, only `add_turn`
updates `last_activity`; `add_product_search`, `add_product_view`,
`update_cart`, `update_shipping_address` and `update_preferences` leave it
unchanged, so `last_activity` reflects the most recent turn rather than the
most recent mutation. -/
theorem last_activity_only_add_turn (ctx : SessionContext) (u a q cid : String)
    (meta : Option PyVal) (now : String) (act : Nat) (results : List PyVal) (product : PyVal)
    (address : List (String × String)) (preferences : List (String × PyVal)) :
    (ctx.add_turn u a meta now act).last_activity = act ∧
    (ctx.add_product_search q results now).last_activity = ctx.last_activity ∧
    (ctx.add_product_view product now).last_activity = ctx.last_activity ∧
    (ctx.update_cart cid).last_activity = ctx.last_activity ∧
    (ctx.update_shipping_address address).last_activity = ctx.last_activity ∧
    (ctx.update_preferences preferences).last_activity = ctx.last_activity :=
  ⟨rfl, rfl, rfl, rfl, rfl, rfl⟩

/-- C8: `from_dict` after `to_dict` reconstructs an equivalent context —
identical conversation history, the same `max_turns` cap, and identical cart
id, recent searches, recent product views, shipping address and user
preferences (only `last_activity`, which is not serialized, is reset to the
deserialization-time clock). -/
theorem serialize_round_trip (ctx : SessionContext) (now2 : Nat) :
    (SessionContext.from_dict ctx.to_dict now2).user_id = ctx.user_id ∧
    (SessionContext.from_dict ctx.to_dict now2).session_id = ctx.session_id ∧
    (SessionContext.from_dict ctx.to_dict now2).conversation_history =
      ctx.conversation_history ∧
    (SessionContext.from_dict ctx.to_dict now2).max_turns = ctx.max_turns ∧
    (SessionContext.from_dict ctx.to_dict now2).current_cart_id = ctx.current_cart_id ∧
    (SessionContext.from_dict ctx.to_dict now2).recent_product_searches =
      ctx.recent_product_searches ∧
    (SessionContext.from_dict ctx.to_dict now2).recent_products_viewed =
      ctx.recent_products_viewed ∧
    (SessionContext.from_dict ctx.to_dict now2).shipping_address = ctx.shipping_address ∧
    (SessionContext.from_dict ctx.to_dict now2).user_preferences = ctx.user_preferences := by
  refine ⟨rfl, rfl, ?_, rfl, rfl, rfl, rfl, rfl, rfl⟩
  show (ctx.conversation_history.map ContextEntry.to_dict).map ContextEntry.of_data =
    ctx.conversation_history
  rw [List.map_map]
  have h : ∀ e : ContextEntry, ContextEntry.of_data (ContextEntry.to_dict e) = e := by
    intro e
    cases e
    rfl
  calc (ctx.conversation_history.map (ContextEntry.of_data ∘ ContextEntry.to_dict)) =
      ctx.conversation_history.map id := List.map_congr_left (fun e _ => h e)
    _ = ctx.conversation_history := List.map_id _

/-- C4 counterexample: tagging is not idempotent — calling
`add_attribution_to_cart_input` on a cart that already carries the attribution
attributes (here: the output of a first call) appends them again, leaving two
attributes with the reserved key `_agent_conversation_id`. -/
theorem add_attribution_duplicates :
    ((add_attribution_to_cart_input
        (add_attribution_to_cart_input {} "c1" "u1" Option.none) "c1" "u1"
        Option.none).attributes.getD []).countP
      (fun a => a.key == "_agent_conversation_id") = 2 := by
  decide

/-- C4 (amended): `add_attribution_to_cart_input` always appends the
attribution attributes to whatever `attributes` list is present (creating it
when missing), without inspecting existing entries — so a second call
duplicates them — and writes every attribute value verbatim, with no length
cap: the full `conversation_id` appears as the written value, and the `rest`
of the cart input is untouched. -/
theorem add_attribution_appends (cart : CartInput) (cid uid : String)
    (sm : Option (List (String × String))) :
    (add_attribution_to_cart_input cart cid uid sm).attributes =
      some (cart.attributes.getD [] ++ (attribution_attributes cid uid sm).filterMap id) ∧
    (add_attribution_to_cart_input cart cid uid sm).rest = cart.rest ∧
    (add_attribution_to_cart_input (add_attribution_to_cart_input cart cid uid sm)
        cid uid sm).attributes =
      some (cart.attributes.getD [] ++ (attribution_attributes cid uid sm).filterMap id ++
        (attribution_attributes cid uid sm).filterMap id) ∧
    CartAttr.mk "_agent_conversation_id" cid ∈
      (add_attribution_to_cart_input cart cid uid sm).attributes.getD [] := by
  have h1 : ∀ c : CartInput, (add_attribution_to_cart_input c cid uid sm).attributes =
      some (c.attributes.getD [] ++ (attribution_attributes cid uid sm).filterMap id) := by
    intro c
    cases hc : c.attributes <;> simp [add_attribution_to_cart_input, hc]
  have h2 : ∀ c : CartInput, (add_attribution_to_cart_input c cid uid sm).rest = c.rest := by
    intro c
    cases hc : c.attributes <;> simp [add_attribution_to_cart_input, hc]
  refine ⟨h1 cart, h2 cart, ?_, ?_⟩
  · rw [h1 _, h1 cart]
    simp
  · rw [h1 cart]
    simp only [Option.getD_some]
    refine List.mem_append_right _ ?_
    simp [attribution_attributes, List.filterMap_cons]

theorem applyAttr_dict_eq (acc : Attribution) (kvs : List (String × PyVal)) :
    applyAttr acc (.dict kvs) =
      (if pyEqStr (attrKeyOf kvs) "_agent_conversation_id" then
        Except.ok { acc with
          conversation_id := dictGetD kvs "value" (.str ""), is_agent_attributed := true }
      else if pyEqStr (attrKeyOf kvs) "_agent_user_id" then
        Except.ok { acc with user_id := dictGetD kvs "value" (.str "") }
      else if pyEqStr (attrKeyOf kvs) "_agent_source" then
        Except.ok { acc with source := dictGetD kvs "value" (.str "") }
      else if pyEqStr (attrKeyOf kvs) "_agent_timestamp" then
        Except.ok { acc with timestamp := dictGetD kvs "value" (.str "") }
      else Except.ok acc) := rfl

theorem applyAttr_flag (acc acc2 : Attribution) (a : PyVal)
    (h : applyAttr acc a = Except.ok acc2) :
    acc2.is_agent_attributed =
      (acc.is_agent_attributed || attrMatches a "_agent_conversation_id") := by
  cases a with
  | dict kvs =>
      have hm : attrMatches (PyVal.dict kvs) "_agent_conversation_id" =
          pyEqStr (attrKeyOf kvs) "_agent_conversation_id" := rfl
      rw [applyAttr_dict_eq] at h
      split_ifs at h with h1 h2 h3 h4 <;> injection h with h5 <;> subst h5 <;>
        rw [hm] <;> simp [h1]
  | none => cases h
  | bool b => cases h
  | int n => cases h
  | str s => cases h
  | list xs => cases h

theorem applyAttr_dict_ok (acc : Attribution) (kvs : List (String × PyVal)) :
    ∃ acc2, applyAttr acc (.dict kvs) = Except.ok acc2 := by
  rw [applyAttr_dict_eq]
  split_ifs <;> exact ⟨_, rfl⟩

theorem applyAttr_no_match (acc : Attribution) (kvs : List (String × PyVal))
    (h : reservedKeys.all (fun k => !attrMatches (.dict kvs) k) = true) :
    applyAttr acc (.dict kvs) = Except.ok acc := by
  simp [reservedKeys, attrMatches] at h
  rw [applyAttr_dict_eq]
  simp [h.1, h.2.1, h.2.2.1, h.2.2.2]

theorem foldlM_applyAttr_ok (attrs : List PyVal) (acc : Attribution)
    (h : ∀ a ∈ attrs, isDictB a = true) :
    ∃ r, attrs.foldlM applyAttr acc = Except.ok r := by
  induction attrs generalizing acc with
  | nil => exact ⟨acc, rfl⟩
  | cons a attrs ih =>
      have ha : isDictB a = true := h a (List.mem_cons_self a attrs)
      obtain ⟨kvs, rfl⟩ : ∃ kvs, a = PyVal.dict kvs := by
        cases a <;> simp [isDictB] at ha ⊢
      obtain ⟨acc2, h2⟩ := applyAttr_dict_ok acc kvs
      obtain ⟨r, hr⟩ := ih acc2 (fun a hm => h a (List.mem_cons_of_mem _ hm))
      exact ⟨r, by rw [List.foldlM_cons, h2]; simpa using hr⟩

theorem foldlM_applyAttr_no_match (attrs : List PyVal) (acc : Attribution)
    (h : ∀ a ∈ attrs, isDictB a = true ∧
      reservedKeys.all (fun k => !attrMatches a k) = true) :
    attrs.foldlM applyAttr acc = Except.ok acc := by
  induction attrs with
  | nil => rfl
  | cons a attrs ih =>
      obtain ⟨ha, hk⟩ := h a (List.mem_cons_self a attrs)
      obtain ⟨kvs, rfl⟩ : ∃ kvs, a = PyVal.dict kvs := by
        cases a <;> simp [isDictB] at ha ⊢
      rw [List.foldlM_cons, applyAttr_no_match acc kvs hk]
      simpa using ih (fun a hm => h a (List.mem_cons_of_mem _ hm))

theorem wellFormedSource_list {v : PyVal} (h : wellFormedSource v = true) :
    ∃ xs, v = PyVal.list xs ∧ ∀ a ∈ xs, isDictB a = true := by
  cases v with
  | list xs =>
      refine ⟨xs, rfl, ?_⟩
      simpa [wellFormedSource, List.all_eq_true] using h
  | none => simp [wellFormedSource] at h
  | bool b => simp [wellFormedSource] at h
  | int n => simp [wellFormedSource] at h
  | str t => simp [wellFormedSource] at h
  | dict kvs => simp [wellFormedSource] at h

theorem extract_eq_foldlM (order_data : List (String × PyVal))
    (h : wellFormedSources order_data = true) :
    extract_attribution_from_order order_data =
      (mergedAttributes order_data).foldlM applyAttr {} ∧
    (∀ a ∈ mergedAttributes order_data, isDictB a = true) := by
  rw [wellFormedSources, Bool.and_eq_true] at h
  obtain ⟨xs, hcv, hcd⟩ := wellFormedSource_list h.1
  obtain ⟨ys, hnv, hnd⟩ := wellFormedSource_list h.2
  constructor
  · unfold extract_attribution_from_order mergedAttributes
    rw [hcv, hnv]
    rfl
  · intro a hm
    unfold mergedAttributes at hm
    rw [hcv, hnv] at hm
    rcases List.mem_append.mp hm with h1 | h1
    · exact hcd a h1
    · exact hnd a h1

/-- C7 (amended): attribution extraction merges the two attribute sources and
is total on payloads whose sources, when present, are lists of dicts — absent
sources default to an empty list and are tolerated, and when none of the
reserved keys occur the result is the empty, unattributed record, not an
error. (A present but malformed source — not a list of dicts — raises, see
the counterexample; the source iteration and `.get` calls have no guard.) -/
theorem extract_attribution_total (order_data : List (String × PyVal))
    (h : wellFormedSources order_data = true) :
    extract_attribution_from_order order_data =
      (mergedAttributes order_data).foldlM applyAttr {} ∧
    (∃ r, extract_attribution_from_order order_data = Except.ok r) ∧
    ((mergedAttributes order_data).all
        (fun a => reservedKeys.all (fun k => !attrMatches a k)) = true →
      extract_attribution_from_order order_data = Except.ok {}) := by
  obtain ⟨he, hd⟩ := extract_eq_foldlM order_data h
  refine ⟨he, ?_, ?_⟩
  · obtain ⟨r, hr⟩ := foldlM_applyAttr_ok (mergedAttributes order_data) {} hd
    exact ⟨r, by rw [he, hr]⟩
  · intro hall
    rw [List.all_eq_true] at hall
    rw [he]
    exact foldlM_applyAttr_no_match _ _ (fun a hm => ⟨hd a hm, hall a hm⟩)

/-- C7 counterexample: a present but malformed attribute source — here
`customAttributes` holding a string — makes `extract_attribution_from_order`
raise (`AttributeError` on `'str'.get`) instead of returning an absent
result, so extraction is not total over order payloads. -/
theorem extract_attribution_raises_on_malformed :
    extract_attribution_from_order [("customAttributes", PyVal.str "zz")] =
      Except.error PyErr.attributeError := rfl

/-- C7 witness: the totality theorem applied to a concrete order payload with
both attribute sources absent: extraction succeeds and returns the empty,
unattributed record. -/
theorem extract_attribution_total_case :
    wellFormedSources [("id", PyVal.int 7)] = true ∧
    extract_attribution_from_order [("id", PyVal.int 7)] = Except.ok {} :=
  ⟨rfl, (extract_attribution_total [("id", PyVal.int 7)] rfl).2.2 rfl⟩

theorem foldlM_applyAttr_flag (attrs : List PyVal) (acc r : Attribution)
    (h : attrs.foldlM applyAttr acc = Except.ok r) :
    r.is_agent_attributed =
      (acc.is_agent_attributed ||
        attrs.any (fun a => attrMatches a "_agent_conversation_id")) := by
  induction attrs generalizing acc with
  | nil =>
      simp only [List.foldlM_nil, pure, Except.pure, Except.ok.injEq] at h
      subst h
      simp
  | cons a attrs ih =>
      rw [List.foldlM_cons] at h
      cases ha : applyAttr acc a with
      | error e =>
          rw [ha] at h
          simp [Bind.bind, Except.bind] at h
      | ok acc2 =>
          rw [ha] at h
          simp only [Bind.bind, Except.bind] at h
          have hstep := applyAttr_flag acc acc2 a ha
          rw [List.any_cons]
          rw [ih acc2 h, hstep, Bool.or_assoc]

/-- C10: the extraction loop marks an order agent-attributed exactly when the
merged attribute list contains an attribute whose `key` (falling back to
`name`) is `_agent_conversation_id`; a payload carrying only
`_agent_user_id` stays unattributed even though the user id is still copied
into the result. -/
theorem is_agent_attributed_iff (attrs : List PyVal) (r : Attribution)
    (h : attrs.foldlM applyAttr {} = Except.ok r) :
    (r.is_agent_attributed = true ↔
      attrs.any (fun a => attrMatches a "_agent_conversation_id") = true) ∧
    extract_attribution_from_order
        [("note_attributes", PyVal.list [PyVal.dict
          [("key", PyVal.str "_agent_user_id"), ("value", PyVal.str "u9")]])] =
      Except.ok { user_id := PyVal.str "u9" } := by
  constructor
  · have hf := foldlM_applyAttr_flag attrs {} r h
    simp only [Bool.false_or] at hf
    rw [hf]
  · rfl

/-- C10 witness: the iff applied to a concrete merged attribute list carrying
the reserved conversation-id key. -/
theorem is_agent_attributed_iff_case :
    [PyVal.dict [("key", PyVal.str "_agent_conversation_id"),
      ("value", PyVal.str "c7")]].any
      (fun a => attrMatches a "_agent_conversation_id") = true :=
  (is_agent_attributed_iff
    [PyVal.dict [("key", PyVal.str "_agent_conversation_id"), ("value", PyVal.str "c7")]]
    { conversation_id := PyVal.str "c7", is_agent_attributed := true } rfl).1.mp rfl

theorem markConversationOrder_find? (l : List ConversationRow) (cid : String) (amt : Rat)
    (c : ConversationRow) (h : l.find? (fun x => x.id == cid) = some c) :
    (markConversationOrder l cid amt).find? (fun x => x.id == cid) =
      some { c with order_completed := true, total_revenue := c.total_revenue + amt } := by
  induction l with
  | nil => simp at h
  | cons c0 l ih =>
      by_cases hc : (c0.id == cid) = true
      · simp only [List.find?, hc] at h
        injection h with h2
        subst h2
        show List.find? (fun x => x.id == cid)
            (if c0.id == cid then
              { c0 with order_completed := true, total_revenue := c0.total_revenue + amt } :: l
            else c0 :: markConversationOrder l cid amt) = _
        rw [if_pos hc]
        simp [List.find?, hc]
      · have hcf : (c0.id == cid) = false := by simpa using hc
        simp only [List.find?, hcf] at h
        show List.find? (fun x => x.id == cid)
            (if c0.id == cid then
              { c0 with order_completed := true, total_revenue := c0.total_revenue + amt } :: l
            else c0 :: markConversationOrder l cid amt) = _
        rw [if_neg hc]
        simp only [List.find?, hcf]
        exact ih h

theorem record_order_fresh (db : Db) (p : OrderParams) (now : Nat)
    (hfresh : db.orders.any (fun o => o.id == p.order_id) = false) :
    (record_order_completion db p now false).1 =
      { orders := db.orders ++ [p.toRow now],
        conversations :=
          markConversationOrder db.conversations p.conversation_id p.total_amount,
        carts :=
          match p.cart_id with
          | some cid => markCartConverted db.carts cid p.order_id
          | Option.none => db.carts } := by
  unfold record_order_completion
  simp [hfresh]

theorem record_order_duplicate (db : Db) (p : OrderParams) (now : Nat)
    (hdup : db.orders.any (fun o => o.id == p.order_id) = true) :
    record_order_completion db p now false = (db, false) := by
  unfold record_order_completion
  simp [hdup]

/-- C1: order correlation is idempotent in the order id. Starting from a
store with no record for the order id and a matching conversation row, the
first delivery persists exactly one `Order` row and adds the order total to
the conversation revenue exactly once; the second delivery with the same
order id changes nothing (the `orders.id` primary-key insert fails at commit,
the session is rolled back) and still returns without raising — a
duplicate-delivery no-op. -/
theorem record_order_idempotent (db : Db) (p : OrderParams) (n1 n2 : Nat)
    (c : ConversationRow)
    (hfresh : db.orders.any (fun o => o.id == p.order_id) = false)
    (hconv : db.conversations.find? (fun x => x.id == p.conversation_id) = some c) :
    (record_order_completion (record_order_completion db p n1 false).1 p n2 false).1 =
      (record_order_completion db p n1 false).1 ∧
    (record_order_completion (record_order_completion db p n1 false).1 p n2 false).2 =
      false ∧
    (record_order_completion db p n1 false).1.orders.countP
      (fun o => o.id == p.order_id) = 1 ∧
    revenueOf (record_order_completion db p n1 false).1 p.conversation_id =
      some (c.total_revenue + p.total_amount) := by
  have h1 := record_order_fresh db p n1 hfresh
  have hdup : (record_order_completion db p n1 false).1.orders.any
      (fun o => o.id == p.order_id) = true := by
    rw [h1]
    simp [OrderParams.toRow]
  have h2 := record_order_duplicate (record_order_completion db p n1 false).1 p n2 hdup
  refine ⟨?_, ?_, ?_, ?_⟩
  · rw [h2]
  · rw [h2]
  · rw [h1]
    simp only [List.countP_append]
    have hz : db.orders.countP (fun o => o.id == p.order_id) = 0 := by
      rw [List.countP_eq_zero]
      intro a ha
      exact (List.any_eq_false.mp hfresh) a ha
    rw [hz]
    simp [OrderParams.toRow, List.countP_cons]
  · rw [h1]
    unfold revenueOf
    rw [markConversationOrder_find? db.conversations p.conversation_id p.total_amount c hconv]
    rfl

/-- C1 witness: the idempotency theorem at a concrete store and payload: two
deliveries of order `o1` leave one record and revenue `0 + 10`. -/
theorem record_order_idempotent_case :
    (record_order_completion (record_order_completion caseDb caseOrder 1 false).1
        caseOrder 2 false).1 = (record_order_completion caseDb caseOrder 1 false).1 ∧
    revenueOf (record_order_completion caseDb caseOrder 1 false).1 "conv1" =
      some (0 + 10) := by
  have h := record_order_idempotent caseDb caseOrder 1 2
    { id := "conv1", user_id := "u1" } rfl rfl
  exact ⟨h.1, h.2.2.2⟩

/-- C5 (the code's actual behaviour at the failing input): when the commit of
an order record fails, `record_order_completion` rolls the session back and
returns normally — the blanket `except` clause swallows the persistence
failure instead of re-raising it, so the webhook layer answers success and
the platform never retries the delivery. -/
theorem record_order_swallows_failure (db : Db) (p : OrderParams) (now : Nat) :
    record_order_completion db p now true = (db, false) := rfl

theorem b64CharIndex_b64Char_all :
    (List.range 64).all (fun i => b64CharIndex (b64Char i) == i) = true := by decide

theorem b64CharIndex_b64Char {i : Nat} (h : i < 64) : b64CharIndex (b64Char i) = i := by
  have h2 := List.all_eq_true.mp b64CharIndex_b64Char_all i (List.mem_range.mpr h)
  simpa using h2

theorem b64Char_ne_pad_all :
    (List.range 64).all (fun i => !(b64Char i == '=')) = true := by decide

theorem b64Char_ne_pad {i : Nat} (h : i < 64) : ¬ b64Char i = '=' := by
  have h2 := List.all_eq_true.mp b64Char_ne_pad_all i (List.mem_range.mpr h)
  simpa using h2

theorem b64DecGroup_encGroup_three {a b c : Nat} (ha : a < 256) (hb : b < 256)
    (hc : c < 256) : b64DecGroup (b64EncGroup [a, b, c]) = [a, b, c] := by
  show b64DecGroup [b64Char ((a * 65536 + b * 256 + c) / 262144),
      b64Char ((a * 65536 + b * 256 + c) / 4096 % 64),
      b64Char ((a * 65536 + b * 256 + c) / 64 % 64),
      b64Char ((a * 65536 + b * 256 + c) % 64)] = [a, b, c]
  simp only [b64DecGroup]
  rw [if_neg (b64Char_ne_pad (by omega)), if_neg (b64Char_ne_pad (by omega))]
  rw [b64CharIndex_b64Char (by omega), b64CharIndex_b64Char (by omega),
    b64CharIndex_b64Char (by omega), b64CharIndex_b64Char (by omega)]
  simp only [List.cons.injEq, and_true]
  omega

theorem b64DecGroup_encGroup_two {a b : Nat} (ha : a < 256) (hb : b < 256) :
    b64DecGroup (b64EncGroup [a, b]) = [a, b] := by
  show b64DecGroup [b64Char ((a * 65536 + b * 256) / 262144),
      b64Char ((a * 65536 + b * 256) / 4096 % 64),
      b64Char ((a * 65536 + b * 256) / 64 % 64), '='] = [a, b]
  simp only [b64DecGroup]
  rw [if_neg (b64Char_ne_pad (by omega))]
  rw [if_pos trivial]
  rw [b64CharIndex_b64Char (by omega), b64CharIndex_b64Char (by omega),
    b64CharIndex_b64Char (by omega)]
  simp only [List.cons.injEq, and_true]
  omega

theorem b64DecGroup_encGroup_one {a : Nat} (ha : a < 256) :
    b64DecGroup (b64EncGroup [a]) = [a] := by
  show b64DecGroup [b64Char ((a * 65536) / 262144),
      b64Char ((a * 65536) / 4096 % 64), '=', '='] = [a]
  simp only [b64DecGroup]
  rw [if_pos trivial]
  rw [b64CharIndex_b64Char (by omega), b64CharIndex_b64Char (by omega)]
  simp only [List.cons.injEq, and_true]
  omega

theorem b64Chunks4_append4 (g : List Char) (hg : g.length = 4) (rest : List Char) :
    b64Chunks4 (g ++ rest) = g :: b64Chunks4 rest := by
  match g, hg with
  | [c1, c2, c3, c4], _ => rfl

theorem b64EncGroup_len3 (a b c : Nat) : (b64EncGroup [a, b, c]).length = 4 := rfl

theorem b64EncGroup_len2 (a b : Nat) : (b64EncGroup [a, b]).length = 4 := rfl

theorem b64EncGroup_len1 (a : Nat) : (b64EncGroup [a]).length = 4 := rfl

theorem b64_roundtrip_chars (bs : List Nat) (h : ∀ x ∈ bs, x < 256) :
    (b64Chunks4 ((b64Groups bs).flatMap b64EncGroup)).flatMap b64DecGroup = bs := by
  induction bs using b64Groups.induct with
  | case1 => rfl
  | case2 a =>
      show (b64Chunks4 (b64EncGroup [a] ++ [])).flatMap b64DecGroup = [a]
      rw [b64Chunks4_append4 _ (b64EncGroup_len1 a)]
      show b64DecGroup (b64EncGroup [a]) ++ [] = [a]
      rw [List.append_nil, b64DecGroup_encGroup_one (h a (by simp))]
  | case3 a b =>
      show (b64Chunks4 (b64EncGroup [a, b] ++ [])).flatMap b64DecGroup = [a, b]
      rw [b64Chunks4_append4 _ (b64EncGroup_len2 a b)]
      show b64DecGroup (b64EncGroup [a, b]) ++ [] = [a, b]
      rw [List.append_nil,
        b64DecGroup_encGroup_two (h a (by simp)) (h b (by simp))]
  | case4 a b c rest ih =>
      show (b64Chunks4 (b64EncGroup [a, b, c] ++
        (b64Groups rest).flatMap b64EncGroup)).flatMap b64DecGroup = a :: b :: c :: rest
      rw [b64Chunks4_append4 _ (b64EncGroup_len3 a b c)]
      show b64DecGroup (b64EncGroup [a, b, c]) ++
        (b64Chunks4 ((b64Groups rest).flatMap b64EncGroup)).flatMap b64DecGroup = _
      rw [b64DecGroup_encGroup_three (h a (by simp)) (h b (by simp)) (h c (by simp)),
        ih (fun x hx => h x (by simp [hx]))]
      rfl

theorem b64decode_encode (bs : List Nat) (h : ∀ x ∈ bs, x < 256) :
    b64decode (b64encode bs) = bs :=
  b64_roundtrip_chars bs h

theorem b64encode_injOn {bs1 bs2 : List Nat} (h1 : ∀ x ∈ bs1, x < 256)
    (h2 : ∀ x ∈ bs2, x < 256) (he : b64encode bs1 = b64encode bs2) : bs1 = bs2 := by
  rw [← b64decode_encode bs1 h1, ← b64decode_encode bs2 h2, he]

theorem beBytes_lt (n v : Nat) : ∀ x ∈ beBytes n v, x < 256 := by
  intro x hx
  unfold beBytes at hx
  obtain ⟨i, _, rfl⟩ := List.mem_map.mp hx
  exact Nat.mod_lt _ (by omega)

theorem sha256_bytes (msg : List Nat) : ∀ x ∈ sha256 msg, x < 256 := by
  intro x hx
  unfold sha256 at hx
  rcases List.mem_append.mp hx with hx | h
  case inr => exact beBytes_lt _ _ x h
  rcases List.mem_append.mp hx with hx | h
  case inr => exact beBytes_lt _ _ x h
  rcases List.mem_append.mp hx with hx | h
  case inr => exact beBytes_lt _ _ x h
  rcases List.mem_append.mp hx with hx | h
  case inr => exact beBytes_lt _ _ x h
  rcases List.mem_append.mp hx with hx | h
  case inr => exact beBytes_lt _ _ x h
  rcases List.mem_append.mp hx with hx | h
  case inr => exact beBytes_lt _ _ x h
  rcases List.mem_append.mp hx with hx | h
  case inr => exact beBytes_lt _ _ x h
  exact beBytes_lt _ _ x hx

theorem hmacSha256_bytes (key msg : List Nat) : ∀ x ∈ hmacSha256 key msg, x < 256 :=
  sha256_bytes _

/-- C2: `verify_shopify_webhook` accepts exactly when the header equals the
base64 encoding of the HMAC-SHA256 of the exact raw body under the secret
(and is total: a missing header or any other string yields `false`, never an
exception); consequently, if a mutated body's HMAC differs from the original
body's HMAC — which is what flipping any single byte does, short of an
HMAC-SHA256 collision — a header that verified the original is rejected for
the mutated body. -/
theorem verify_webhook_iff :
    (∀ (data : List Nat) (header : Option String) (secret : List Nat),
      verify_shopify_webhook data header secret = true ↔
        header = some (b64encode (hmacSha256 secret data))) ∧
    (∀ (data data2 : List Nat) (header : Option String) (secret : List Nat),
      verify_shopify_webhook data header secret = true →
      hmacSha256 secret data2 ≠ hmacSha256 secret data →
      verify_shopify_webhook data2 header secret = false) := by
  have hiff : ∀ (data : List Nat) (header : Option String) (secret : List Nat),
      verify_shopify_webhook data header secret = true ↔
        header = some (b64encode (hmacSha256 secret data)) := by
    intro data header secret
    cases header with
    | none => simp [verify_shopify_webhook]
    | some s =>
        show (b64encode (hmacSha256 secret data) == s) = true ↔ _
        rw [beq_iff_eq]
        constructor
        · intro he
          rw [he]
        · intro he
          injection he with he2
          rw [he2]
  refine ⟨hiff, ?_⟩
  intro data data2 header secret hv hne
  rw [hiff data header secret] at hv
  subst hv
  cases hb : verify_shopify_webhook data2
      (some (b64encode (hmacSha256 secret data))) secret with
  | false => rfl
  | true =>
      rw [hiff] at hb
      injection hb with hb2
      exact absurd (b64encode_injOn (hmacSha256_bytes secret data)
        (hmacSha256_bytes secret data2) hb2).symm hne

/-- C2 witness: the verification theorem at a concrete body, secret and
header: the genuine HMAC header (computed by the embedded SHA-256) verifies
the body `[104, 105]`, and the same header is rejected for the body with its
last byte flipped to `[104, 104]`, whose HMAC differs. -/
theorem verify_webhook_iff_case :
    verify_shopify_webhook [104, 105]
      (some (b64encode (hmacSha256 [115, 101, 99] [104, 105]))) [115, 101, 99] = true ∧
    verify_shopify_webhook [104, 104]
      (some (b64encode (hmacSha256 [115, 101, 99] [104, 105]))) [115, 101, 99] = false :=
  ⟨(verify_webhook_iff.1 [104, 105]
      (some (b64encode (hmacSha256 [115, 101, 99] [104, 105]))) [115, 101, 99]).mpr rfl,
   verify_webhook_iff.2 [104, 105] [104, 104]
     (some (b64encode (hmacSha256 [115, 101, 99] [104, 105]))) [115, 101, 99]
     ((verify_webhook_iff.1 [104, 105]
       (some (b64encode (hmacSha256 [115, 101, 99] [104, 105]))) [115, 101, 99]).mpr rfl)
     (by decide)⟩

end ShopifyAgent
